import Mathlib

/-!
Verification development for the GitHub repository creator utility.

The definitions below are a shallow embedding of the Python sources:
  - services/validation_service.py (validate_folder_path,
    validate_repository_name, validate_token)
  - services/git_service.py (create_gitkeep_files, stage_all_files,
    commit, rename_branch)
  - services/github_service.py (create_repository)
  - ui/main_window.py (_create_repository_workflow)

External effects (filesystem queries, the git tool, the GitHub API) are
modelled as explicit parameters; pure string manipulation follows Python
str semantics on the character list of the string.
-/

/-! ## Python string primitives -/

/-- Whitespace characters recognised by Python str.strip (ASCII subset;
the sources only ever strip ASCII input). -/
def isPySpace (c : Char) : Bool :=
  c == ' ' || c == '\t' || c == '\n' || c == '\r' || c == '\x0b' || c == '\x0c'

/-- Python str.strip(): remove leading and trailing whitespace. -/
def pyStrip (s : String) : String :=
  String.mk (((s.data.dropWhile isPySpace).reverse.dropWhile isPySpace).reverse)

/-- Python len() on a string (number of characters). -/
def pyLen (s : String) : Nat := s.data.length

/-- Python str.startswith. -/
def pyStartsWith (s p : String) : Bool := p.data.isPrefixOf s.data

/-- Python str.endswith. -/
def pyEndsWith (s p : String) : Bool := p.data.isSuffixOf s.data

/-- Python substring test `pat in s`, by scanning for a match at each
position. -/
def containsSeq (pat : List Char) : List Char → Bool
  | [] => pat.isEmpty
  | c :: cs => pat.isPrefixOf (c :: cs) || containsSeq pat cs

/-- Python `pat in s` on strings. -/
def pyContains (s pat : String) : Bool := containsSeq pat.data s.data

/-- Python str.lower() (ASCII letters; the compared literals are ASCII). -/
def pyLower (s : String) : String := String.mk (s.data.map Char.toLower)

/-- Character class of the regular expression [a-zA-Z0-9._-] used by
validate_repository_name. -/
def isRepoNameChar (c : Char) : Bool :=
  c.isAlphanum || c == '.' || c == '_' || c == '-'

/-- Full match of a Python pattern of the shape `cls{min,}` anchored with
a final dollar. Python re treats the dollar anchor as matching either at
the very end of the string or just before a single final newline, so a
string consisting of class characters followed by one trailing newline
also matches. -/
def regexPlusDollar (cls : Char → Bool) (low : Nat) (cs : List Char) : Bool :=
  (low ≤ cs.length && cs.all cls) ||
  (match cs.getLast? with
   | some c => c == '\n' && decide (low ≤ cs.dropLast.length) && cs.dropLast.all cls
   | none => false)

/-- Full match of `[a-zA-Z0-9._-]+` anchored at both ends (re.match with
a dollar anchor), as used on repository names. -/
def matchesNamePattern (cs : List Char) : Bool :=
  regexPlusDollar isRepoNameChar 1 cs

/-- Full match of the classic token pattern `ghp_[a-zA-Z0-9]{36,}`
anchored at both ends. -/
def matchesClassicToken (cs : List Char) : Bool :=
  match cs with
  | 'g' :: 'h' :: 'p' :: '_' :: rest => regexPlusDollar Char.isAlphanum 36 rest
  | _ => false

/-- Character class of the fine-grained token pattern. -/
def isFinePatChar (c : Char) : Bool := c.isAlphanum || c == '_'

/-- Full match of the fine-grained token pattern
`github_pat_[a-zA-Z0-9_]{40,}` anchored at both ends. -/
def matchesFineToken (cs : List Char) : Bool :=
  match cs with
  | 'g' :: 'i' :: 't' :: 'h' :: 'u' :: 'b' :: '_' :: 'p' :: 'a' :: 't' :: '_' :: rest =>
      regexPlusDollar isFinePatChar 40 rest
  | _ => false

/-! ## services/validation_service.py -/

/-- Result of the filesystem queries made by validate_folder_path; each
field corresponds to one os or pathlib call on the given path. -/
structure PathInfo where
  pathExists : Bool
  isDir : Bool
  readable : Bool
  gitEntryExists : Bool
  gitEntryIsDir : Bool

/-- Embedding of validate_folder_path (validation_service.py lines
12 to 53). The filesystem answers are passed in as a PathInfo. -/
def validate_folder_path (path : String) (fs : PathInfo) : Bool × String :=
  if path.data.isEmpty then (false, "Folder path cannot be empty")
  else if !fs.pathExists then (false, "Folder does not exist: " ++ path)
  else if !fs.isDir then (false, "Path is not a directory: " ++ path)
  else if !fs.readable then (false, "Folder is not readable: " ++ path)
  else if fs.gitEntryExists && fs.gitEntryIsDir then
    (true, "Warning: Folder already contains a Git repository")
  else (true, "")

/-- Embedding of validate_repository_name (validation_service.py lines
56 to 103). -/
def validate_repository_name (name : String) : Bool × String :=
  if name.data.isEmpty then (false, "Repository name cannot be empty")
  else if pyLen name < 1 then (false, "Repository name must be at least 1 character")
  else if 100 < pyLen name then (false, "Repository name must be 100 characters or less")
  else if !matchesNamePattern name.data then
    (false, "Repository name can only contain alphanumeric characters, hyphens, underscores, and periods")
  else if pyStartsWith name "." || pyEndsWith name "." then
    (false, "Repository name cannot start or end with a period")
  else if pyContains name ".." then
    (false, "Repository name cannot contain consecutive periods")
  else if pyLower name == "." || pyLower name == ".." || pyLower name == ".git" then
    (false, "Repository name \x27" ++ name ++ "\x27 is reserved")
  else (true, "")

/-- Embedding of validate_token (validation_service.py lines 106 to
148). -/
def validate_token (token : String) : Bool × String :=
  if token.data.isEmpty then (false, "Token cannot be empty")
  else if pyLen token < 20 then
    (false, "Token appears too short (GitHub tokens are typically 40+ characters)")
  else if pyStartsWith token "ghp_" then
    if pyLen token < 40 then (false, "Classic token appears too short")
    else if !matchesClassicToken token.data then (false, "Invalid classic token format")
    else (true, "")
  else if pyStartsWith token "github_pat_" then
    if pyLen token < 50 then (false, "Fine-grained token appears too short")
    else if !matchesFineToken token.data then (false, "Invalid fine-grained token format")
    else (true, "")
  else
    (false, "Token must start with \x27ghp_\x27 (classic) or \x27github_pat_\x27 (fine-grained)")

/-! ## services/git_service.py: commit and rename_branch -/

/-- Embedding of GitService.commit (git_service.py lines 193 to 222).
The first argument tells whether the GitPython branch is taken, the
second is the outcome of the underlying git commit invocation (GitPython
call completing without an exception, or subprocess exiting with status
zero). Returns the boolean result together with the number of times the
underlying version-control tool was invoked. -/
def commit (gitpythonRepo : Bool) (toolCommitOk : Bool) (message : String) : Bool × Nat :=
  if message.data.isEmpty || (pyStrip message).data.isEmpty then (false, 0)
  else if gitpythonRepo then (toolCommitOk, 1)
  else (toolCommitOk, 1)

/-- Embedding of the subprocess branch of GitService.rename_branch
(git_service.py lines 282 to 292): the result of `git branch -M` is its
exit code and standard error text. -/
def rename_branch_subprocess (returncode : Nat) (stderr : String) : Bool :=
  returncode == 0 || pyContains (pyLower stderr) "already exists"

/-- Embedding of the GitPython branch of GitService.rename_branch
(git_service.py lines 274 to 281): the argument tells whether the
underlying branch command raised an exception. -/
def rename_branch_gitpython (branchCmdRaises : Bool) : Bool :=
  if branchCmdRaises then true else true

/-! ## services/github_service.py: create_repository -/

/-- Outcome of the PyGithub create_repo call: success with a clone URL,
a GithubException carrying an HTTP status, or any other exception. -/
inductive ApiOutcome where
  | created (cloneUrl : String)
  | apiError (status : Nat) (message : String)
  | otherFailure (message : String)

/-- Embedding of GitHubService.create_repository (github_service.py
lines 65 to 108). A raised exception is modelled as Except.error
carrying the exception message. -/
def create_repository (pygithubReady : Bool) (name : String) (outcome : ApiOutcome) :
    Except String String :=
  if !pygithubReady then .error "PyGithub library not available"
  else
    match outcome with
    | .created url => .ok url
    | .apiError status msg =>
        if status == 422 then
          .error ("Repository \x27" ++ name ++ "\x27 already exists or name is invalid")
        else if status == 401 then
          .error "Authentication failed. Please check your token."
        else .error ("Failed to create repository: " ++ msg)
    | .otherFailure msg => .error ("Failed to create repository: " ++ msg)

/-! ## services/git_service.py: the empty-directory materializer

A directory tree is modelled by the mutual inductives Entry / EntryList:
an entry is a file with a name and an on-disk byte size, or a directory
with a name and its children. -/

mutual
inductive Entry where
  | file (name : String) (size : Nat)
  | dir (name : String) (children : EntryList)
inductive EntryList where
  | nil
  | cons (e : Entry) (es : EntryList)
end

/-- Name of a directory entry (pathlib item.name). -/
def Entry.entryName : Entry → String
  | .file n _ => n
  | .dir n _ => n

/-- One child as inspected by the loop of is_empty_leaf_folder
(git_service.py lines 100 to 112): a child keeps the folder classified
empty when it is the .gitkeep file or the skipped .git directory. -/
def leafOKEntry : Entry → Bool
  | .file n _ => n == ".gitkeep"
  | .dir n _ => n == ".git"

/-- Embedding of is_empty_leaf_folder (git_service.py lines 89 to 118):
no files other than .gitkeep and no subdirectories other than the
skipped .git directory. -/
def isEmptyLeafFolder : EntryList → Bool
  | .nil => true
  | .cons e es => leafOKEntry e && isEmptyLeafFolder es

/-- The gitkeep_path.exists() test (git_service.py line 133): some entry
of the directory is named .gitkeep. -/
def hasGitkeep : EntryList → Bool
  | .nil => false
  | .cons e es => e.entryName == ".gitkeep" || hasGitkeep es

/-- Visit of one directory by create_gitkeep_files (git_service.py lines
128 to 139): given the directory content and the result of walking its
children, touch a zero-byte .gitkeep (counted once) when the directory
is an empty leaf and the marker does not already exist. -/
def markDir (cs : EntryList) (recursed : EntryList × Nat) : EntryList × Nat :=
  if isEmptyLeafFolder cs && !hasGitkeep cs then
    (.cons (.file ".gitkeep" 0) recursed.1, recursed.2 + 1)
  else recursed

mutual
/-- Walk of os.walk restricted to one entry: files are untouched, a
directory named .git is skipped together with everything below it
(git_service.py lines 124 to 126), any other directory is visited. -/
def walkEntry : Entry → Entry × Nat
  | .file n s => (.file n s, 0)
  | .dir n cs =>
      if n == ".git" then (.dir n cs, 0)
      else (.dir n (markDir cs (walkChildren cs)).1, (markDir cs (walkChildren cs)).2)
/-- Walk of os.walk over a list of sibling entries. -/
def walkChildren : EntryList → EntryList × Nat
  | .nil => (.nil, 0)
  | .cons e es =>
      (.cons (walkEntry e).1 (walkChildren es).1, (walkEntry e).2 + (walkChildren es).2)
end

/-- Embedding of GitService.create_gitkeep_files (git_service.py lines
74 to 141) on the children of the repository root: returns the updated
tree and the number of markers created. The classification of every
directory only reads content that existed before the run (a marker is
only ever written into the directory being visited, and an empty leaf
has no subdirectories), so the visit order of os.walk is immaterial. -/
def create_gitkeep_files (root : EntryList) : EntryList × Nat :=
  markDir root (walkChildren root)

/-- Child of a directory at a given index. -/
def entryAt : EntryList → Nat → Option Entry
  | .nil, _ => none
  | .cons e _, 0 => some e
  | .cons _ es, n + 1 => entryAt es n

/-- Children of the directory reached from the root by the given child
indices, following only directories the walk visits (a path through a
directory named .git yields none, as the walk skips it). The empty path
denotes the repository root itself. -/
def visitedAt (cs : EntryList) : List Nat → Option EntryList
  | [] => some cs
  | i :: p =>
      match entryAt cs i with
      | some (.dir n ds) => if n == ".git" then none else visitedAt ds p
      | _ => none

/-- Whether the directory reached by the given path satisfies the
empty-leaf rule (false when the path reaches no visited directory). -/
def emptyAtB (root : EntryList) (p : List Nat) : Bool :=
  match visitedAt root p with
  | some cs => isEmptyLeafFolder cs
  | none => false

/-- Whether one run of create_gitkeep_files creates a marker in the
directory reached by the given path: the marker is present in that
directory afterwards and was not present before. -/
def createdAt (root : EntryList) (p : List Nat) : Bool :=
  match visitedAt (create_gitkeep_files root).1 p, visitedAt root p with
  | some afterCs, some beforeCs => hasGitkeep afterCs && !hasGitkeep beforeCs
  | _, _ => false

mutual
/-- Number of visited directories inside an entry that are empty leaves
still lacking their marker. -/
def unmarkedLeafCount : Entry → Nat
  | .file _ _ => 0
  | .dir n cs =>
      if n == ".git" then 0
      else (if isEmptyLeafFolder cs && !hasGitkeep cs then 1 else 0) + unmarkedLeafCountList cs
/-- Sum of unmarkedLeafCount over sibling entries. -/
def unmarkedLeafCountList : EntryList → Nat
  | .nil => 0
  | .cons e es => unmarkedLeafCount e + unmarkedLeafCountList es
end

/-- Number of visited directories of the whole tree (root included) that
are empty leaves still lacking their marker. -/
def unmarkedLeafCountRoot (root : EntryList) : Nat :=
  (if isEmptyLeafFolder root && !hasGitkeep root then 1 else 0) + unmarkedLeafCountList root

mutual
/-- Number of visited directories inside an entry that satisfy the
empty-leaf rule, whether or not they already hold a marker. This is the
count named by the specification (leaf directories containing no
non-marker files and no subdirectories). -/
def emptyLeafCount : Entry → Nat
  | .file _ _ => 0
  | .dir n cs =>
      if n == ".git" then 0
      else (if isEmptyLeafFolder cs then 1 else 0) + emptyLeafCountList cs
/-- Sum of emptyLeafCount over sibling entries. -/
def emptyLeafCountList : EntryList → Nat
  | .nil => 0
  | .cons e es => emptyLeafCount e + emptyLeafCountList es
end

/-- Specification count over the whole tree, root included. -/
def emptyLeafCountRoot (root : EntryList) : Nat :=
  (if isEmptyLeafFolder root then 1 else 0) + emptyLeafCountList root

/-! ## services/git_service.py: stage_all_files -/

mutual
/-- File count and total byte size gathered by the counting loop of
stage_all_files (git_service.py lines 156 to 162): every file whose
path has no .git component is counted with its on-disk size. -/
def fileStats : Entry → Nat × Nat
  | .file n s => if n == ".git" then (0, 0) else (1, s)
  | .dir n cs => if n == ".git" then (0, 0) else fileStatsList cs
/-- Sum of fileStats over sibling entries. -/
def fileStatsList : EntryList → Nat × Nat
  | .nil => (0, 0)
  | .cons e es =>
      ((fileStats e).1 + (fileStatsList es).1, (fileStats e).2 + (fileStatsList es).2)
end

mutual
/-- Sizes of the files an entry contributes to the count of
stage_all_files, as a list (one element per counted file). -/
def fileSizes : Entry → List Nat
  | .file n s => if n == ".git" then [] else [s]
  | .dir n cs => if n == ".git" then [] else fileSizesList cs
/-- Concatenation of fileSizes over sibling entries. -/
def fileSizesList : EntryList → List Nat
  | .nil => []
  | .cons e es => fileSizes e ++ fileSizesList es
end

/-- Embedding of GitService.stage_all_files (git_service.py lines 143
to 191, GitPython branch, which the workflow uses once the repository is
initialized). The list stagedByGit is the set of files the opaque
`git add .` call actually staged, with their sizes: it reflects the
ignore rules of the tool and is reported by the tool, not computed here.
The boolean tells whether the staging call completed; on an exception
the method returns (0, 0). The counting loop never consults the staged
set: it walks the working directory itself. -/
def stage_all_files (tree : EntryList) (stagedByGit : List (String × Nat))
    (addOk : Bool) : Nat × Nat :=
  if addOk then fileStatsList tree else (0, 0)

/-! ## Declarative characterization used to compare against the code -/

/-- Acceptance condition for repository names, stated declaratively: the
characters (apart from an optional single trailing newline tolerated by
the dollar anchor of the Python pattern) are letters, digits, hyphen,
underscore or period; the length is between 1 and 100; the name neither
starts nor ends with a period and has no two consecutive periods. -/
def repoNameSpec (s : String) : Prop :=
  (∃ core : List Char,
    (s.data = core ∨ s.data = core ++ ['\n']) ∧ core ≠ [] ∧
      (∀ c ∈ core, isRepoNameChar c = true)) ∧
  s.data.length ≤ 100 ∧
  s.data.head? ≠ some '.' ∧
  s.data.getLast? ≠ some '.' ∧
  ¬ ∃ a b, s.data = a ++ ['.', '.'] ++ b

/-! ## Concrete inputs used by the examples below -/

/-- Tree a/b where b is empty and a contains only b. -/
def abRoot : EntryList :=
  .cons (.dir "a" (.cons (.dir "b" .nil) .nil)) .nil

/-- Tree with one directory c that contains nothing but a previously
placed marker file. -/
def markedOnlyRoot : EntryList :=
  .cons (.dir "c" (.cons (.file ".gitkeep" 0) .nil)) .nil

/-- Working directory holding an ignore file and a log file. -/
def stagingTree : EntryList :=
  .cons (.file ".gitignore" 10) (.cons (.file "debug.log" 7) .nil)

/-- Staged set reported by the version-control tool when its ignore
rules exclude the log file: only the ignore file, 10 bytes. -/
def stagedOnly : List (String × Nat) := [(".gitignore", 10)]

/-- Token of length 45 that starts with ghp_ but is not alphanumeric
after the prefix. -/
def badClassicToken : String :=
  String.mk ('g' :: 'h' :: 'p' :: '_' :: List.replicate 41 '!')

/-! ## ui/main_window.py: the workflow orchestrator -/

/-- Local version-control operations the workflow can execute, in the
order they appear in _create_repository_workflow. -/
inductive GitCmd where
  | gitInit
  | gitkeep
  | stage
  | commitCmd
  | remoteAdd
  | renameBranch
  | push
  deriving DecidableEq, Repr

/-- Outcomes of the external calls made by one workflow run: the token
check, the remote creation, and each local git operation. -/
structure WorkflowEnv where
  tokenValid : Bool
  createOutcome : Except String String
  initOk : Bool
  gitkeepCount : Nat
  stageStats : Nat × Nat
  commitOk : Bool
  remoteOk : Bool
  renameOk : Bool
  pushOk : Bool

/-- Final state of one workflow run. -/
inductive WorkflowResult where
  | succeeded (repoUrl : String)
  | failed
  deriving DecidableEq, Repr

/-- Embedding of MainWindow._create_repository_workflow (main_window.py
lines 475 to 576): the linear pipeline with its failure policy. The
returned list records the local version-control operations that were
executed, in order. A failure of create_repository raises and is caught
by the surrounding handler before any GitService call, so it produces an
empty trace. Renaming the branch is soft: its failure only changes the
logged message. -/
def run_workflow (env : WorkflowEnv) : WorkflowResult × List GitCmd :=
  if !env.tokenValid then (.failed, [])
  else
    match env.createOutcome with
    | .error _ => (.failed, [])
    | .ok url =>
      if !env.initOk then (.failed, [.gitInit])
      else if !env.commitOk then (.failed, [.gitInit, .gitkeep, .stage, .commitCmd])
      else if !env.remoteOk then
        (.failed, [.gitInit, .gitkeep, .stage, .commitCmd, .remoteAdd])
      else if !env.pushOk then
        (.failed, [.gitInit, .gitkeep, .stage, .commitCmd, .remoteAdd, .renameBranch, .push])
      else
        (.succeeded url, [.gitInit, .gitkeep, .stage, .commitCmd, .remoteAdd, .renameBranch, .push])

/-- Environment of a run whose remote creation hits a name collision
(HTTP 422 from the hosting API); every other collaborator would succeed. -/
def collisionEnv : WorkflowEnv :=
  ⟨true, create_repository true "demo" (.apiError 422 "name already exists"),
    true, 1, (2, 10), true, true, true, true⟩

/-! ## General helper lemmas -/

theorem isPrefixOf_iff_exists (p l : List Char) :
    p.isPrefixOf l = true ↔ ∃ t, l = p ++ t := by
  induction p generalizing l with
  | nil => simp [List.isPrefixOf]
  | cons a ps ih =>
    cases l with
    | nil => simp [List.isPrefixOf]
    | cons b bs =>
      simp only [List.isPrefixOf, Bool.and_eq_true, beq_iff_eq, ih, List.cons_append,
        List.cons.injEq]
      constructor
      · rintro ⟨rfl, t, rfl⟩
        exact ⟨t, rfl, rfl⟩
      · rintro ⟨t, rfl, rfl⟩
        exact ⟨rfl, t, rfl⟩

theorem containsSeq_iff (pat l : List Char) :
    containsSeq pat l = true ↔ ∃ a b, l = a ++ pat ++ b := by
  induction l with
  | nil =>
    simp only [containsSeq, List.isEmpty_iff]
    constructor
    · rintro rfl
      exact ⟨[], [], rfl⟩
    · rintro ⟨a, b, h⟩
      rcases List.append_eq_nil.mp h.symm with ⟨h1, h2⟩
      exact (List.append_eq_nil.mp h1).2
  | cons c cs ih =>
    simp only [containsSeq, Bool.or_eq_true, isPrefixOf_iff_exists, ih]
    constructor
    · rintro (⟨t, h⟩ | ⟨a, b, rfl⟩)
      · exact ⟨[], t, by simpa using h⟩
      · exact ⟨c :: a, b, rfl⟩
    · rintro ⟨a, b, h⟩
      cases a with
      | nil => exact Or.inl ⟨b, by simpa using h⟩
      | cons x xs =>
        rw [List.cons_append, List.cons_append, List.cons.injEq] at h
        exact Or.inr ⟨xs, b, h.2⟩

theorem singletonPrefix (a : Char) (l : List Char) :
    [a].isPrefixOf l = true ↔ l.head? = some a := by
  cases l with
  | nil => simp [List.isPrefixOf]
  | cons b bs =>
    show (a == b && List.isPrefixOf [] bs) = true ↔ (b :: bs).head? = some a
    rw [List.isPrefixOf_nil_left]
    simp only [Bool.and_true, beq_iff_eq, List.head?_cons, Option.some.injEq]
    exact eq_comm

theorem singletonSuffix (a : Char) (l : List Char) :
    [a].isSuffixOf l = true ↔ l.getLast? = some a := by
  rw [List.isSuffixOf, show ([a]).reverse = [a] from rfl, singletonPrefix,
    List.head?_reverse]

theorem getLast?_decomp {l : List Char} {a : Char} (h : l.getLast? = some a) :
    l = l.dropLast ++ [a] := by
  induction l with
  | nil => simp at h
  | cons x xs ih =>
    cases xs with
    | nil =>
      simp only [List.getLast?_singleton, Option.some.injEq] at h
      simp [h]
    | cons y ys =>
      rw [List.getLast?_cons_cons] at h
      rw [List.dropLast_cons_of_ne_nil (by simp), List.cons_append]
      exact congrArg (x :: ·) (ih h)

theorem toNat_ofNat_small {m : Nat} (h : m < 55296) : (Char.ofNat m).toNat = m := by
  unfold Char.ofNat
  rw [dif_pos (Or.inl h)]
  rfl

theorem toLower_eq_dot {c : Char} (h : Char.toLower c = '.') : c = '.' := by
  rw [Char.toLower] at h
  split at h
  · exfalso
    next hc =>
    have h2 := congrArg Char.toNat h
    rw [toNat_ofNat_small (by omega)] at h2
    have h3 : ('.' : Char).toNat = 46 := rfl
    rw [h3] at h2
    omega
  · exact h

theorem pyLower_ne {s r : String} (hr : r.data.head? = some '.')
    (hs : s.data.head? ≠ some '.') : pyLower s ≠ r := by
  intro h
  apply hs
  have hd : s.data.map Char.toLower = r.data := congrArg String.data h
  have hh : (s.data.map Char.toLower).head? = some '.' := by rw [hd, hr]
  rw [List.head?_map] at hh
  cases he : s.data.head? with
  | none => rw [he] at hh; simp at hh
  | some c =>
    rw [he] at hh
    simp only [Option.map_some'] at hh
    exact congrArg some (toLower_eq_dot (Option.some.inj hh))

/-! ## Lemmas about the directory walk -/

theorem entryName_walkEntry (e : Entry) : ((walkEntry e).1).entryName = e.entryName := by
  cases e with
  | file n s => rfl
  | dir n cs => unfold walkEntry; split <;> rfl

theorem leafOKEntry_walkEntry (e : Entry) : leafOKEntry (walkEntry e).1 = leafOKEntry e := by
  cases e with
  | file n s => rfl
  | dir n cs => unfold walkEntry; split <;> rfl

theorem isEmptyLeafFolder_walkChildren :
    ∀ cs : EntryList, isEmptyLeafFolder (walkChildren cs).1 = isEmptyLeafFolder cs
  | .nil => rfl
  | .cons e es => by
    show (leafOKEntry (walkEntry e).1 && isEmptyLeafFolder (walkChildren es).1) = _
    rw [leafOKEntry_walkEntry, isEmptyLeafFolder_walkChildren es]
    rfl

theorem hasGitkeep_walkChildren :
    ∀ cs : EntryList, hasGitkeep (walkChildren cs).1 = hasGitkeep cs
  | .nil => rfl
  | .cons e es => by
    show (((walkEntry e).1.entryName == ".gitkeep") || hasGitkeep (walkChildren es).1) = _
    rw [entryName_walkEntry, hasGitkeep_walkChildren es]
    rfl

theorem entryAt_walkChildren :
    ∀ (cs : EntryList) (i : Nat),
      entryAt (walkChildren cs).1 i = (entryAt cs i).map fun e => (walkEntry e).1
  | .nil, _ => rfl
  | .cons _ _, 0 => rfl
  | .cons _ es, i + 1 => entryAt_walkChildren es i

theorem not_emptyLeaf_of_dirAt :
    ∀ (cs : EntryList) (i : Nat) (n : String) (ds : EntryList),
      entryAt cs i = some (.dir n ds) → (n == ".git") = false →
      isEmptyLeafFolder cs = false
  | .nil, i, n, ds => by
    intro h _
    exact Option.noConfusion h
  | .cons e es, 0, n, ds => by
    intro h hn
    have he : e = .dir n ds := Option.some.inj h
    subst he
    show ((n == ".git") && isEmptyLeafFolder es) = false
    rw [hn, Bool.false_and]
  | .cons e es, i + 1, n, ds => by
    intro h hn
    show (leafOKEntry e && isEmptyLeafFolder es) = false
    rw [not_emptyLeaf_of_dirAt es i n ds h hn, Bool.and_false]

theorem visitedAt_create : ∀ (p : List Nat) (cs ds : EntryList),
    visitedAt cs p = some ds →
    visitedAt (markDir cs (walkChildren cs)).1 p = some (markDir ds (walkChildren ds)).1 := by
  intro p
  induction p with
  | nil =>
    intro cs ds h
    cases Option.some.inj h
    rfl
  | cons i q ih =>
    intro cs ds h
    cases he : entryAt cs i with
    | none =>
      rw [visitedAt, he] at h
      exact Option.noConfusion h
    | some e =>
      cases e with
      | file m s =>
        rw [visitedAt, he] at h
        exact Option.noConfusion h
      | dir n es =>
        rw [visitedAt, he] at h
        have h' : (if (n == ".git") = true then none else visitedAt es q) = some ds := h
        by_cases hn : (n == ".git") = true
        · rw [if_pos hn] at h'
          exact Option.noConfusion h'
        · rw [if_neg hn] at h'
          have hn' : (n == ".git") = false := Bool.eq_false_iff.mpr hn
          have hempty : isEmptyLeafFolder cs = false := not_emptyLeaf_of_dirAt cs i n es he hn'
          have hmark : markDir cs (walkChildren cs) = walkChildren cs := by
            unfold markDir
            rw [hempty, Bool.false_and, if_neg (by simp)]
          rw [hmark]
          rw [visitedAt, entryAt_walkChildren, he]
          simp only [Option.map_some']
          rw [walkEntry, if_neg hn]
          show (if (n == ".git") = true then none
               else visitedAt (markDir es (walkChildren es)).1 q) = _
          rw [if_neg hn]
          exact ih es ds h'

mutual
theorem walkEntry_count : ∀ e : Entry, (walkEntry e).2 = unmarkedLeafCount e
  | .file _ _ => rfl
  | .dir n cs => by
    rw [walkEntry, unmarkedLeafCount]
    by_cases h : (n == ".git") = true
    · rw [if_pos h, if_pos h]
    · rw [if_neg h, if_neg h]
      show (markDir cs (walkChildren cs)).2 = _
      rw [markDir]
      by_cases h2 : (isEmptyLeafFolder cs && !hasGitkeep cs) = true
      · rw [if_pos h2, if_pos h2]
        show (walkChildren cs).2 + 1 = 1 + unmarkedLeafCountList cs
        rw [walkChildren_count cs, Nat.add_comm]
      · rw [if_neg h2, if_neg h2]
        show (walkChildren cs).2 = 0 + unmarkedLeafCountList cs
        rw [walkChildren_count cs, Nat.zero_add]
theorem walkChildren_count : ∀ cs : EntryList, (walkChildren cs).2 = unmarkedLeafCountList cs
  | .nil => rfl
  | .cons e es => by
    show (walkEntry e).2 + (walkChildren es).2 = _
    rw [walkEntry_count e, walkChildren_count es]
    rfl
end

mutual
theorem unmarked_walkEntry : ∀ e : Entry, unmarkedLeafCount (walkEntry e).1 = 0
  | .file _ _ => rfl
  | .dir n cs => by
    rw [walkEntry]
    by_cases h : (n == ".git") = true
    · rw [if_pos h]
      show unmarkedLeafCount (.dir n cs) = 0
      rw [unmarkedLeafCount, if_pos h]
    · rw [if_neg h]
      show unmarkedLeafCount (.dir n (markDir cs (walkChildren cs)).1) = 0
      rw [unmarkedLeafCount, if_neg h, markDir]
      by_cases h2 : (isEmptyLeafFolder cs && !hasGitkeep cs) = true
      · rw [if_pos h2]
        show (if (isEmptyLeafFolder (.cons (.file ".gitkeep" 0) (walkChildren cs).1) &&
              !hasGitkeep (.cons (.file ".gitkeep" 0) (walkChildren cs).1)) = true
              then 1 else 0) +
            unmarkedLeafCountList (.cons (.file ".gitkeep" 0) (walkChildren cs).1) = 0
        have hg : hasGitkeep (.cons (.file ".gitkeep" 0) (walkChildren cs).1) = true := by
          show ((".gitkeep" : String) == ".gitkeep" || _) = true
          rw [beq_self_eq_true, Bool.true_or]
        rw [hg]
        show (if (_ && false) = true then 1 else 0) +
            (unmarkedLeafCount (.file ".gitkeep" 0) + unmarkedLeafCountList (walkChildren cs).1) = 0
        rw [Bool.and_false, if_neg (by simp), unmarked_walkChildren cs]
        rfl
      · rw [if_neg h2]
        rw [isEmptyLeafFolder_walkChildren cs, hasGitkeep_walkChildren cs]
        rw [if_neg h2, unmarked_walkChildren cs]
theorem unmarked_walkChildren : ∀ cs : EntryList, unmarkedLeafCountList (walkChildren cs).1 = 0
  | .nil => rfl
  | .cons e es => by
    show unmarkedLeafCount (walkEntry e).1 + unmarkedLeafCountList (walkChildren es).1 = 0
    rw [unmarked_walkEntry e, unmarked_walkChildren es]
end

mutual
theorem fileStats_eq : ∀ e : Entry, fileStats e = ((fileSizes e).length, (fileSizes e).sum)
  | .file n s => by
    rw [fileStats, fileSizes]
    by_cases h : (n == ".git") = true
    · rw [if_pos h, if_pos h]
      rfl
    · rw [if_neg h, if_neg h]
      simp
  | .dir n cs => by
    rw [fileStats, fileSizes]
    by_cases h : (n == ".git") = true
    · rw [if_pos h, if_pos h]
      rfl
    · rw [if_neg h, if_neg h]
      exact fileStatsList_eq cs
theorem fileStatsList_eq :
    ∀ cs : EntryList, fileStatsList cs = ((fileSizesList cs).length, (fileSizesList cs).sum)
  | .nil => rfl
  | .cons e es => by
    show ((fileStats e).1 + (fileStatsList es).1, (fileStats e).2 + (fileStatsList es).2) = _
    rw [fileStats_eq e, fileStatsList_eq es]
    show ((fileSizes e).length + (fileSizesList es).length,
          (fileSizes e).sum + (fileSizesList es).sum) = _
    rw [show fileSizesList (.cons e es) = fileSizes e ++ fileSizesList es from rfl]
    rw [List.length_append, List.sum_append]
end

/-! ## Claim theorems -/

/-- C1 (amended): for every directory the walk visits (the .git metadata
directory and its contents excluded), one run of create_gitkeep_files
creates a marker file in that directory if and only if the directory
contains no files other than a previously placed marker, no
subdirectories, and does not already contain the marker file. -/
theorem create_gitkeep_marks_iff (root : EntryList) (p : List Nat) (cs : EntryList)
    (h : visitedAt root p = some cs) :
    createdAt root p = (isEmptyLeafFolder cs && !hasGitkeep cs) := by
  have h2 := visitedAt_create p root cs h
  rw [createdAt, create_gitkeep_files, h2, h]
  show (hasGitkeep (markDir cs (walkChildren cs)).1 && !hasGitkeep cs) = _
  rw [markDir]
  by_cases hc : (isEmptyLeafFolder cs && !hasGitkeep cs) = true
  · rw [if_pos hc]
    show (hasGitkeep (.cons (.file ".gitkeep" 0) (walkChildren cs).1) && !hasGitkeep cs) = _
    have hg : hasGitkeep (.cons (.file ".gitkeep" 0) (walkChildren cs).1) = true := by
      show ((".gitkeep" : String) == ".gitkeep" || _) = true
      rw [beq_self_eq_true, Bool.true_or]
    rw [hg, Bool.true_and, hc]
    exact ((Bool.and_eq_true _ _).mp hc).2
  · rw [if_neg hc]
    show (hasGitkeep (walkChildren cs).1 && !hasGitkeep cs) = _
    rw [hasGitkeep_walkChildren cs, Bool.and_not_self, Bool.eq_false_iff.mpr hc]

/-- Witness for C1: in the tree a/b where b is empty and a contains only
b, the run creates a marker in b, none in a, and exactly one marker in
total. -/
theorem create_gitkeep_marks_iff_witness :
    visitedAt abRoot [0, 0] = some EntryList.nil ∧
    createdAt abRoot [0, 0] = true ∧
    createdAt abRoot [0] = false ∧
    (create_gitkeep_files abRoot).2 = 1 :=
  ⟨rfl,
   (create_gitkeep_marks_iff abRoot [0, 0] .nil rfl).trans (by decide),
   (create_gitkeep_marks_iff abRoot [0] (.cons (.dir "b" .nil) .nil) rfl).trans (by decide),
   by decide⟩

/-- Counterexample to C1 as stated: the directory c of markedOnlyRoot
contains no files other than a previously placed marker and no
subdirectories, yet the run creates no marker in it (the marker already
exists, so nothing is created). -/
theorem create_gitkeep_marks_iff_cex :
    emptyAtB markedOnlyRoot [0] = true ∧ createdAt markedOnlyRoot [0] = false := by
  decide

/-- C2 (amended): a second run of create_gitkeep_files on the tree
produced by a first run creates 0 markers, and the first run's count
equals the number of visited directories that contain no non-marker
files, no subdirectories, and no previously placed marker. -/
theorem create_gitkeep_idempotent (root : EntryList) :
    (create_gitkeep_files (create_gitkeep_files root).1).2 = 0 ∧
    (create_gitkeep_files root).2 = unmarkedLeafCountRoot root := by
  constructor
  · by_cases hc : (isEmptyLeafFolder root && !hasGitkeep root) = true
    · have h1 : (create_gitkeep_files root).1 =
          .cons (.file ".gitkeep" 0) (walkChildren root).1 := by
        rw [create_gitkeep_files, markDir, if_pos hc]
      rw [h1, create_gitkeep_files, markDir]
      have hg : hasGitkeep (.cons (.file ".gitkeep" 0) (walkChildren root).1) = true := by
        show ((".gitkeep" : String) == ".gitkeep" || _) = true
        rw [beq_self_eq_true, Bool.true_or]
      rw [hg, Bool.not_true, Bool.and_false, if_neg (by simp)]
      rw [walkChildren_count]
      show unmarkedLeafCount (.file ".gitkeep" 0) + unmarkedLeafCountList (walkChildren root).1 = 0
      rw [unmarked_walkChildren root]
      rfl
    · have h1 : (create_gitkeep_files root).1 = (walkChildren root).1 := by
        rw [create_gitkeep_files, markDir, if_neg hc]
      rw [h1, create_gitkeep_files, markDir]
      rw [isEmptyLeafFolder_walkChildren root, hasGitkeep_walkChildren root, if_neg hc]
      rw [walkChildren_count, unmarked_walkChildren root]
  · rw [create_gitkeep_files, markDir, unmarkedLeafCountRoot]
    by_cases hc : (isEmptyLeafFolder root && !hasGitkeep root) = true
    · rw [if_pos hc, if_pos hc]
      show (walkChildren root).2 + 1 = 1 + unmarkedLeafCountList root
      rw [walkChildren_count, Nat.add_comm]
    · rw [if_neg hc, if_neg hc]
      show (walkChildren root).2 = 0 + unmarkedLeafCountList root
      rw [walkChildren_count, Nat.zero_add]

/-- Counterexample to C2 as stated: on markedOnlyRoot the first run
returns 0, while the number of leaf directories containing no non-marker
files and no subdirectories is 1 (directory c, already holding its
marker). -/
theorem create_gitkeep_count_cex :
    (create_gitkeep_files markedOnlyRoot).2 = 0 ∧ emptyLeafCountRoot markedOnlyRoot = 1 := by
  decide

/-- C4: for every message that is empty or consists only of whitespace,
commit returns failure without invoking the underlying version-control
tool, in both backend branches. -/
theorem commit_rejects_blank_message (gp tool : Bool) (message : String)
    (h : ∀ c ∈ message.data, isPySpace c = true) :
    commit gp tool message = (false, 0) := by
  have h1 : message.data.dropWhile isPySpace = [] := List.dropWhile_eq_nil_iff.mpr h
  have hd : (pyStrip message).data = [] := by
    show (((message.data.dropWhile isPySpace).reverse.dropWhile isPySpace).reverse) = []
    rw [h1]
    rfl
  rw [commit, hd]
  show (if (message.data.isEmpty || true) = true then _ else _) = _
  rw [Bool.or_true, if_pos rfl]

/-- Witness for C4: the whitespace-only message of two spaces and a tab
is rejected with the tool never invoked. -/
theorem commit_rejects_blank_message_witness :
    (∀ c ∈ ("  \t" : String).data, isPySpace c = true) ∧
    commit true true "  \t" = (false, 0) :=
  ⟨by decide, commit_rejects_blank_message true true "  \t" (by decide)⟩

/-- C5: evaluation of validate_folder_path at the failing input, an
existing readable directory that already contains a .git directory. The
code answers valid with a warning, while the project test
(test_step_2_1.py) requires the answer to be invalid. -/
theorem validate_folder_path_git_warns :
    validate_folder_path "/work/project" ⟨true, true, true, true, true⟩ =
      (true, "Warning: Folder already contains a Git repository") := by
  decide

/-- C7 (amended): when staging succeeds, stage_all_files reports the
count and total on-disk size of all files under the working directory
whose path has no .git component, independently of which files the
underlying tool actually staged under its ignore rules. -/
theorem stage_all_files_counts_whole_tree (tree : EntryList)
    (staged staged' : List (String × Nat)) (ok : Bool) :
    stage_all_files tree staged ok = stage_all_files tree staged' ok ∧
    stage_all_files tree staged true =
      ((fileSizesList tree).length, (fileSizesList tree).sum) := by
  refine ⟨rfl, ?_⟩
  show fileStatsList tree = _
  exact fileStatsList_eq tree

/-- Counterexample to C7 as stated: on stagingTree the tool staged only
the ignore file (one file, 10 bytes), but stage_all_files reports two
files and 17 bytes: the count is taken over all files under the
directory, not over the staged set. -/
theorem stage_all_files_cex :
    stage_all_files stagingTree stagedOnly true = (2, 17) ∧
    (stagedOnly.length, (stagedOnly.map Prod.snd).sum) = (1, 10) ∧
    ((2, 17) : Nat × Nat) ≠ (1, 10) := by
  refine ⟨by decide, by decide, by decide⟩

/-- C8 (amended): a failing create_repository distinguishes the
authentication failure (HTTP 401) from the HTTP 422 case by distinct
messages, but a naming conflict and an invalid name both surface as the
same 422 status and produce one combined message, so those two causes
are not distinguished from each other. -/
theorem create_repository_error_taxonomy (name m1 m2 : String) :
    create_repository true name (.apiError 422 m1) =
      create_repository true name (.apiError 422 m2) ∧
    create_repository true name (.apiError 422 m1) =
      .error ("Repository \x27" ++ name ++ "\x27 already exists or name is invalid") ∧
    create_repository true name (.apiError 401 m1) =
      .error "Authentication failed. Please check your token." ∧
    ("Repository \x27" ++ name ++ "\x27 already exists or name is invalid" : String) ≠
      "Authentication failed. Please check your token." := by
  refine ⟨rfl, rfl, rfl, ?_⟩
  intro h
  have hR : ("Repository \x27" ++ name ++ "\x27 already exists or name is invalid").data.head? =
      some 'R' := by
    rw [String.data_append, String.data_append]
    rfl
  rw [h] at hR
  exact absurd hR (by decide)

/-- Counterexample to C8 as stated: a naming conflict and an invalid
name reach the code as the same HTTP 422 status, and the errors reported
for the two causes are identical, so the error cannot identify which of
the two occurred. -/
theorem create_repository_conflates_422 :
    create_repository true "demo" (.apiError 422 "name already exists") =
      create_repository true "demo" (.apiError 422 "name is invalid") ∧
    create_repository true "demo" (.apiError 422 "name already exists") =
      .error "Repository \x27demo\x27 already exists or name is invalid" :=
  ⟨rfl, rfl⟩

/-- C9: whenever remote repository creation fails (the call raises, for
example on a name collision), the workflow ends in the failed state with
no local version-control command executed at all. -/
theorem workflow_fails_before_local_git (env : WorkflowEnv) (msg : String)
    (h : env.createOutcome = .error msg) :
    run_workflow env = (.failed, []) := by
  rw [run_workflow, h]
  cases env.tokenValid <;> rfl

/-- Witness for C9: in the environment whose remote creation hits a 422
name collision, the workflow fails with an empty command trace. -/
theorem workflow_fails_before_local_git_witness :
    collisionEnv.createOutcome =
      Except.error "Repository \x27demo\x27 already exists or name is invalid" ∧
    run_workflow collisionEnv = (.failed, []) :=
  ⟨rfl, workflow_fails_before_local_git collisionEnv _ rfl⟩

/-- C10: the subprocess branch of rename_branch returns success exactly
when the tool exits with status 0 or its standard error contains the
text already exists (case-insensitively); the GitPython branch returns
success whether or not the underlying branch command raises, so a
genuine failure there is indistinguishable from success. -/
theorem rename_branch_absorbs_already_exists :
    (∀ (rc : Nat) (err : String),
      rename_branch_subprocess rc err = true ↔
        (rc = 0 ∨ ∃ a b, (pyLower err).data = a ++ ("already exists" : String).data ++ b)) ∧
    (∀ r : Bool, rename_branch_gitpython r = true) ∧
    rename_branch_gitpython true = rename_branch_gitpython false := by
  refine ⟨?_, ?_, rfl⟩
  · intro rc err
    rw [rename_branch_subprocess, pyContains]
    rw [Bool.or_eq_true]
    rw [containsSeq_iff]
    constructor
    · rintro (h | h)
      · exact Or.inl (beq_iff_eq.mp h)
      · exact Or.inr h
    · rintro (h | h)
      · exact Or.inl (by rw [h]; rfl)
      · exact Or.inr h
  · intro r
    cases r <;> rfl

/-- C6 (amended): every string of length 45 that is ghp_ followed by 41
alphanumeric characters passes the credential format check, the string
short fails it, and every string of length 10 starting with ghp_ fails
it. -/
theorem validate_token_classic_format :
    (∀ cs : List Char, cs.length = 41 → (∀ c ∈ cs, c.isAlphanum = true) →
      (validate_token (String.mk ('g' :: 'h' :: 'p' :: '_' :: cs))).1 = true) ∧
    (validate_token "short").1 = false ∧
    (∀ t : String, pyLen t = 10 → pyStartsWith t "ghp_" = true →
      (validate_token t).1 = false) := by
  refine ⟨?_, by decide, ?_⟩
  · intro cs hlen hal
    have hdata : (String.mk ('g' :: 'h' :: 'p' :: '_' :: cs)).data =
        'g' :: 'h' :: 'p' :: '_' :: cs := rfl
    have hne : (String.mk ('g' :: 'h' :: 'p' :: '_' :: cs)).data.isEmpty = false := rfl
    have hlen' : pyLen (String.mk ('g' :: 'h' :: 'p' :: '_' :: cs)) = 45 := by
      show ('g' :: 'h' :: 'p' :: '_' :: cs).length = 45
      simp [hlen]
    have hpre : pyStartsWith (String.mk ('g' :: 'h' :: 'p' :: '_' :: cs)) "ghp_" = true := by
      show List.isPrefixOf "ghp_".data ('g' :: 'h' :: 'p' :: '_' :: cs) = true
      rw [show ("ghp_" : String).data = ['g', 'h', 'p', '_'] from rfl]
      rw [List.isPrefixOf_cons₂, List.isPrefixOf_cons₂, List.isPrefixOf_cons₂,
        List.isPrefixOf_cons₂, List.isPrefixOf_nil_left]
      simp
    have hmatch : matchesClassicToken ('g' :: 'h' :: 'p' :: '_' :: cs) = true := by
      show regexPlusDollar Char.isAlphanum 36 cs = true
      rw [regexPlusDollar]
      have hfirst : (36 ≤ cs.length && cs.all Char.isAlphanum) = true := by
        apply (Bool.and_eq_true _ _).mpr
        constructor
        · rw [hlen]
          rfl
        · exact List.all_eq_true.mpr hal
      rw [hfirst, Bool.true_or]
    simp [validate_token, hdata, hne, hlen', hpre, hmatch]
  · intro t h10 hpre
    have hne : t.data.isEmpty = false := by
      cases ht : t.data with
      | nil =>
        rw [pyLen, ht] at h10
        exact absurd h10 (by decide)
      | cons a l => rfl
    simp [validate_token, hne, h10]

/-- Witness for C6: a concrete ghp_ token of 41 letters a is accepted,
and the concrete 10-character string ghp_abcdef is rejected. -/
theorem validate_token_classic_format_witness :
    (List.replicate 41 'a').length = 41 ∧
    (validate_token (String.mk ('g' :: 'h' :: 'p' :: '_' :: List.replicate 41 'a'))).1 = true ∧
    pyLen "ghp_abcdef" = 10 ∧
    (validate_token "ghp_abcdef").1 = false :=
  ⟨by decide,
   validate_token_classic_format.1 (List.replicate 41 'a') (by decide) (by decide),
   by decide,
   validate_token_classic_format.2.2 "ghp_abcdef" (by decide) (by decide)⟩

/-- Counterexample to C6 as stated: badClassicToken has length 45 and
starts with ghp_, yet the check rejects it, because the characters after
the prefix must also be alphanumeric. -/
theorem validate_token_cex :
    pyLen badClassicToken = 45 ∧
    pyStartsWith badClassicToken "ghp_" = true ∧
    (validate_token badClassicToken).1 = false := by
  refine ⟨by decide, by decide, by decide⟩

/-- C3 (amended): repository-name validation accepts exactly the names
of 1 to 100 characters whose characters (apart from one optional
trailing newline admitted by the dollar anchor of the Python pattern)
are letters, digits, hyphen, underscore or period, and that do not start
with a period, do not end with a period, and do not contain two
consecutive periods. -/
theorem validate_repository_name_characterization (s : String) :
    (validate_repository_name s).1 = true ↔ repoNameSpec s := by
  constructor
  · intro h
    rw [validate_repository_name] at h
    split_ifs at h with h1 h2 h3 h4 h5 h6 h7 <;> try simp at h
    have hne : s.data ≠ [] := fun hh => h1 (List.isEmpty_iff.mpr hh)
    have hm : matchesNamePattern s.data = true := by
      cases hmm : matchesNamePattern s.data
      · exact absurd (by rw [hmm]; rfl) h4
      · rfl
    have hhead : s.data.head? ≠ some '.' := by
      intro hh
      apply h5
      rw [Bool.or_eq_true]
      exact Or.inl ((singletonPrefix '.' s.data).mpr hh)
    have hlast : s.data.getLast? ≠ some '.' := by
      intro hh
      apply h5
      rw [Bool.or_eq_true]
      exact Or.inr ((singletonSuffix '.' s.data).mpr hh)
    have hdd : ¬ ∃ a b, s.data = a ++ ['.', '.'] ++ b := by
      intro hh
      apply h6
      exact (containsSeq_iff ['.', '.'] s.data).mpr hh
    refine ⟨?_, Nat.le_of_not_lt h3, hhead, hlast, hdd⟩
    rw [matchesNamePattern, regexPlusDollar] at hm
    rw [Bool.or_eq_true] at hm
    rcases hm with hl | hr
    · obtain ⟨-, hall⟩ := (Bool.and_eq_true _ _).mp hl
      exact ⟨s.data, Or.inl rfl, hne, List.all_eq_true.mp hall⟩
    · cases hg : s.data.getLast? with
      | none => rw [hg] at hr; exact absurd hr (by simp)
      | some c =>
        rw [hg] at hr
        have hr' : (c == '\n' && decide (1 ≤ s.data.dropLast.length) &&
            s.data.dropLast.all isRepoNameChar) = true := hr
        obtain ⟨hcn, hall⟩ := (Bool.and_eq_true _ _).mp hr'
        obtain ⟨hc1, hc2⟩ := (Bool.and_eq_true _ _).mp hcn
        have hcne : s.data.dropLast ≠ [] := by
          intro hh
          rw [hh] at hc2
          exact absurd hc2 (by decide)
        refine ⟨s.data.dropLast, Or.inr ?_, hcne, List.all_eq_true.mp hall⟩
        have := getLast?_decomp hg
        rwa [beq_iff_eq.mp hc1] at this
  · rintro ⟨⟨core, hc, hcne, hall⟩, hlen, hhead, hlast, hdd⟩
    have hne : s.data ≠ [] := by
      intro hh
      cases hc with
      | inl h0 => exact hcne (h0.symm.trans hh)
      | inr h0 =>
        rw [hh] at h0
        exact absurd h0.symm (by simp)
    have g1 : s.data.isEmpty = false := by
      cases hd : s.data with
      | nil => exact absurd hd hne
      | cons _ _ => rfl
    have g2 : ¬ pyLen s < 1 := by
      rw [pyLen]
      have := List.length_pos.mpr hne
      omega
    have g3 : ¬ 100 < pyLen s := by
      rw [pyLen]
      omega
    have g4 : matchesNamePattern s.data = true := by
      rw [matchesNamePattern, regexPlusDollar]
      cases hc with
      | inl h0 =>
        rw [Bool.or_eq_true]
        refine Or.inl ((Bool.and_eq_true _ _).mpr ⟨?_, ?_⟩)
        · rw [h0]
          have := List.length_pos.mpr hcne
          exact decide_eq_true (by omega)
        · rw [h0]
          exact List.all_eq_true.mpr hall
      | inr h0 =>
        rw [Bool.or_eq_true]
        refine Or.inr ?_
        rw [h0, List.getLast?_concat]
        show ('\n' == '\n' && decide (1 ≤ (core ++ ['\n']).dropLast.length) &&
            (core ++ ['\n']).dropLast.all isRepoNameChar) = true
        rw [List.dropLast_concat]
        apply (Bool.and_eq_true _ _).mpr
        constructor
        · apply (Bool.and_eq_true _ _).mpr
          constructor
          · rfl
          · have := List.length_pos.mpr hcne
            exact decide_eq_true (by omega)
        · exact List.all_eq_true.mpr hall
    have g4' : (!matchesNamePattern s.data) = false := by rw [g4]; rfl
    have g5 : (pyStartsWith s "." || pyEndsWith s ".") = false := by
      have ga : pyStartsWith s "." = false :=
        Bool.eq_false_iff.mpr fun hh => hhead ((singletonPrefix '.' s.data).mp hh)
      have gb : pyEndsWith s "." = false :=
        Bool.eq_false_iff.mpr fun hh => hlast ((singletonSuffix '.' s.data).mp hh)
      rw [ga, gb]
      rfl
    have g6 : pyContains s ".." = false :=
      Bool.eq_false_iff.mpr fun hh => hdd ((containsSeq_iff ['.', '.'] s.data).mp hh)
    have g7 : (pyLower s == "." || pyLower s == ".." || pyLower s == ".git") = false := by
      have ga : (pyLower s == ".") = false :=
        beq_eq_false_iff_ne.mpr (pyLower_ne rfl hhead)
      have gb : (pyLower s == "..") = false :=
        beq_eq_false_iff_ne.mpr (pyLower_ne rfl hhead)
      have gc : (pyLower s == ".git") = false :=
        beq_eq_false_iff_ne.mpr (pyLower_ne rfl hhead)
      rw [ga, gb, gc]
      rfl
    rw [validate_repository_name, g1]
    rw [if_neg Bool.false_ne_true, if_neg g2, if_neg g3, g4',
      if_neg Bool.false_ne_true, g5, if_neg Bool.false_ne_true, g6,
      if_neg Bool.false_ne_true, g7, if_neg Bool.false_ne_true]

/-- Counterexample to C3 as stated: the name .a is two characters drawn
from the allowed set and does not end with a period, so the claim calls
it valid, yet the code rejects it because it starts with a period. -/
theorem validate_repository_name_cex :
    (∀ c ∈ (".a" : String).data, isRepoNameChar c = true) ∧
    pyLen ".a" = 2 ∧
    pyEndsWith ".a" "." = false ∧
    (validate_repository_name ".a").1 = false := by
  refine ⟨by decide, by decide, by decide, by decide⟩
